import Mathlib

/-!
Verification of the transport-and-session core interfaces of py-libp2p
(`src/libp2p/abc.py`).  The file under `src/` declares the interfaces
(`IMultiselectClient`, `IMultiselectMuxer`, `IMuxedConn`, `INetwork`,
`IAddrBook`, ...) with docstrings; almost every operation is an
`@abstractmethod` without a body, so the behaviours are modelled from the
specification and settled against those models.  The one concrete method in
the source, `IMultiselectMuxer.get_protocols`, is embedded directly.
-/

namespace Libp2p

/-- Protocol identifiers are opaque byte strings compared by exact byte
equality (`libp2p.custom_types.TProtocol` is a `str` newtype). -/
abbrev TProtocol := String

/-- Modelled from the spec: the fixed "not available" sentinel token used by
the multiselect exchange as a rejection reply, distinct from any valid
protocol identifier.  (`IMultiselectMuxer.negotiate` in `src/libp2p/abc.py`
is abstract, so the wire token is taken from the spec wire contract.) -/
def naToken : TProtocol := "na"

/-- Errors of the multiselect negotiation: a per-candidate selection failure
recording the proposed identifier and the offending reply, and the
negotiation-exhausted error raised when no candidate is accepted. -/
inductive MultiselectError where
  | failedSelection (proposed reply : String)
  | exhausted
deriving DecidableEq, Repr

/-- Modelled from the spec: `IMultiselectClient.try_select` (abstract in
`src/libp2p/abc.py`, lines 785-796) sends the candidate protocol identifier
and succeeds only if the remote echoes the identical identifier back; any
other reply is a selection failure for that candidate.  The communicator is
modelled by the remote reply function `reply`. -/
def try_select (reply : TProtocol → String) (protocol : TProtocol) :
    Except MultiselectError TProtocol :=
  if reply protocol = protocol then Except.ok protocol
  else Except.error (MultiselectError.failedSelection protocol (reply protocol))

/-- Modelled from the spec: `IMultiselectClient.select_one_of` (abstract in
`src/libp2p/abc.py`, lines 771-783) tries candidates in caller-supplied order
and returns the first one the remote accepts; if none are accepted it fails
with the negotiation-exhausted error.  The first component of the result is
the transcript of candidates actually sent to the remote, in order. -/
def select_one_of (reply : TProtocol → String) :
    List TProtocol → List TProtocol × Except MultiselectError TProtocol
  | [] => ([], Except.error MultiselectError.exhausted)
  | p :: ps =>
    match try_select reply p with
    | Except.ok q => ([p], Except.ok q)
    | Except.error _ =>
      let rest := select_one_of reply ps
      (p :: rest.1, rest.2)

/-- Lookup of the handler registered under a protocol identifier, by exact
equality on the key, mirroring a Python `dict` indexed by `TProtocol`. -/
def findHandler {H : Type} : List (TProtocol × H) → TProtocol → Option H
  | [], _ => none
  | kv :: rest, p => if kv.1 = p then some kv.2 else findHandler rest p

/-- Modelled from the spec: `IMultiselectMuxer.negotiate` (abstract in
`src/libp2p/abc.py`, lines 823-833) reads the client proposals in sequence;
for each, if a handler is registered for that exact identifier it replies
with the same identifier and returns the pair to the caller, otherwise it
replies with the "not available" token and waits for the next proposal.  The
client proposals are modelled by the list argument; the first component of
the result is the list of replies sent, in order. -/
def negotiate {H : Type} (handlers : List (TProtocol × H)) :
    List TProtocol → List String × Except MultiselectError (TProtocol × H)
  | [] => ([], Except.error MultiselectError.exhausted)
  | p :: ps =>
    match findHandler handlers p with
    | some h => ([p], Except.ok (p, h))
    | none =>
      let rest := negotiate handlers ps
      (naToken :: rest.1, rest.2)

/-- State of an `IMultiselectMuxer` (`src/libp2p/abc.py`, line 809): the
`handlers` field is a `dict` from protocol to handler, modelled as an
association list in insertion order. -/
structure MultiselectMuxer (H : Type) where
  handlers : List (TProtocol × H)

/-- Modelled from the spec: `IMultiselectMuxer.add_handler` (abstract in
`src/libp2p/abc.py`, lines 811-818) stores the handler under the given
protocol; Python `dict` assignment replaces the value in place when the key
already exists and appends a new entry otherwise. -/
def add_handler {H : Type} (m : MultiselectMuxer H) (protocol : TProtocol)
    (handler : H) : MultiselectMuxer H :=
  if (findHandler m.handlers protocol).isSome then
    ⟨m.handlers.map fun kv => if kv.1 = protocol then (kv.1, handler) else kv⟩
  else
    ⟨m.handlers ++ [(protocol, handler)]⟩

/-- Source `src/libp2p/abc.py`, lines 820-821: `get_protocols` returns
`tuple(self.handlers.keys())` — the keys of the handlers mapping in its
iteration order. -/
def get_protocols {H : Type} (m : MultiselectMuxer H) : List TProtocol :=
  m.handlers.map Prod.fst

theorem select_one_of_reject_all (reply : TProtocol → String)
    (ps : List TProtocol) (h : ∀ p ∈ ps, reply p ≠ p) :
    select_one_of reply ps = (ps, Except.error MultiselectError.exhausted) := by
  induction ps with
  | nil => rfl
  | cons p ps ih =>
    have hp : reply p ≠ p := h p (List.mem_cons_self p ps)
    have hrest := ih fun q hq => h q (List.mem_cons_of_mem p hq)
    simp [select_one_of, try_select, hp, hrest]

theorem select_one_of_first_accept (reply : TProtocol → String)
    (ps : List TProtocol) (p0 : TProtocol)
    (h : ps.find? (fun p => reply p == p) = some p0) :
    select_one_of reply ps =
      (ps.takeWhile (fun p => reply p != p) ++ [p0], Except.ok p0) := by
  induction ps with
  | nil => simp at h
  | cons p ps ih =>
    by_cases hp : reply p = p
    · have hfind : (p :: ps).find? (fun p => reply p == p) = some p := by
        simp [List.find?, hp]
      rw [hfind] at h
      cases h
      simp [select_one_of, try_select, hp, List.takeWhile]
    · have hb : (reply p == p) = false := by simp [hp]
      have hb2 : (reply p != p) = true := by simp [hp]
      have hfind : (p :: ps).find? (fun p => reply p == p) =
          ps.find? (fun p => reply p == p) := by
        simp [List.find?, hb]
      rw [hfind] at h
      have hrest := ih h
      simp [select_one_of, try_select, hp, hrest, List.takeWhile, hb2]

/-- C1: for every non-empty caller-supplied candidate sequence,
`select_one_of` sends candidates to the remote in exactly the caller-supplied
order: when the remote accepts none of them the transcript is the whole
sequence and the result is the negotiation-exhausted error, never a default;
when `p0` is the first candidate the remote accepts, the transcript is the
rejected prefix followed by `p0` — nothing is sent after the acceptance — and
`p0` is returned. -/
theorem select_one_of_order_and_exhaustion (reply : TProtocol → String)
    (ps : List TProtocol) (hne : ps ≠ []) :
    ((∀ p ∈ ps, reply p ≠ p) →
      select_one_of reply ps = (ps, Except.error MultiselectError.exhausted)) ∧
    (∀ p0, ps.find? (fun p => reply p == p) = some p0 →
      select_one_of reply ps =
        (ps.takeWhile (fun p => reply p != p) ++ [p0], Except.ok p0)) :=
  ⟨fun h => select_one_of_reject_all reply ps h,
   fun p0 h => select_one_of_first_accept reply ps p0 h⟩

theorem select_one_of_order_and_exhaustion_witness :
    select_one_of (fun q => if q = "/b" then q else naToken)
        ["/a", "/b", "/c"] = (["/a", "/b"], Except.ok "/b") := by
  have h := (select_one_of_order_and_exhaustion
      (fun q => if q = "/b" then q else naToken) ["/a", "/b", "/c"]
      (by decide)).2 "/b" (by decide)
  rw [h]
  rfl

/-- C9: `try_select` returns the candidate iff the remote reply is
byte-identical to it; any successful result is the candidate itself; any
other reply — the fixed "not available" token included — produces a selection
failure for that candidate. -/
theorem try_select_exact_match (reply : TProtocol → String) (p : TProtocol) :
    (try_select reply p = Except.ok p ↔ reply p = p) ∧
    (∀ q, try_select reply p = Except.ok q → q = p) ∧
    (reply p ≠ p →
      try_select reply p =
        Except.error (MultiselectError.failedSelection p (reply p))) := by
  unfold try_select
  by_cases h : reply p = p <;> simp [h]

theorem try_select_exact_match_witness :
    try_select (fun q => q) "/chat/1.0.0" = Except.ok "/chat/1.0.0" ∧
    try_select (fun _ => naToken) "/chat/1.0.0" =
      Except.error (MultiselectError.failedSelection "/chat/1.0.0" naToken) :=
  ⟨(try_select_exact_match (fun q => q) "/chat/1.0.0").1.mpr rfl,
   (try_select_exact_match (fun _ => naToken) "/chat/1.0.0").2.2 (by decide)⟩

theorem negotiate_reject_all {H : Type} (handlers : List (TProtocol × H))
    (ps : List TProtocol) (h : ∀ p ∈ ps, findHandler handlers p = none) :
    negotiate handlers ps =
      (ps.map fun _ => naToken, Except.error MultiselectError.exhausted) := by
  induction ps with
  | nil => rfl
  | cons p ps ih =>
    have hp := h p (List.mem_cons_self p ps)
    have hrest := ih fun q hq => h q (List.mem_cons_of_mem p hq)
    simp [negotiate, hp, hrest]

theorem negotiate_first_registered {H : Type} (handlers : List (TProtocol × H))
    (ps : List TProtocol) (p0 : TProtocol) (h0 : H)
    (hfind : ps.find? (fun p => (findHandler handlers p).isSome) = some p0)
    (hh : findHandler handlers p0 = some h0) :
    negotiate handlers ps =
      ((ps.takeWhile fun p => (findHandler handlers p).isNone).map
          (fun _ => naToken) ++ [p0],
        Except.ok (p0, h0)) := by
  induction ps with
  | nil => simp at hfind
  | cons p ps ih =>
    cases hreg : findHandler handlers p with
    | some h1 =>
      have hb : (findHandler handlers p).isSome = true := by simp [hreg]
      have : (p :: ps).find? (fun p => (findHandler handlers p).isSome)
          = some p := by simp [List.find?, hb]
      rw [this] at hfind
      cases hfind
      rw [hreg] at hh
      cases hh
      have hb2 : (findHandler handlers p0).isNone = false := by simp [hreg]
      simp [negotiate, hreg, List.takeWhile, hb2]
    | none =>
      have hb : (findHandler handlers p).isSome = false := by simp [hreg]
      have hb2 : (findHandler handlers p).isNone = true := by simp [hreg]
      have hstep : (p :: ps).find? (fun p => (findHandler handlers p).isSome)
          = ps.find? (fun p => (findHandler handlers p).isSome) := by
        simp [List.find?, hb]
      rw [hstep] at hfind
      have hrest := ih hfind
      simp [negotiate, hreg, hrest, List.takeWhile, hb2]

theorem negotiate_replies_echo_or_na {H : Type}
    (handlers : List (TProtocol × H)) (ps : List TProtocol) :
    ∀ r ∈ (negotiate handlers ps).1, r = naToken ∨ r ∈ ps := by
  induction ps with
  | nil => simp [negotiate]
  | cons p ps ih =>
    intro r hr
    cases hreg : findHandler handlers p with
    | some h1 =>
      simp [negotiate, hreg] at hr
      simp [hr]
    | none =>
      simp [negotiate, hreg] at hr
      cases hr with
      | inl h => exact Or.inl h
      | inr h =>
        cases ih r h with
        | inl h2 => exact Or.inl h2
        | inr h2 => exact Or.inr (List.mem_cons_of_mem p h2)

/-- C2: `negotiate` processes client proposals in order: when no proposal has
a registered handler it replies "not available" to each and fails; when `p0`
is the first proposal registered in the handlers mapping (byte-equal key
match) with handler `h0`, the replies are "not available" for each earlier
proposal followed by an echo of `p0`, and the pair `(p0, h0)` is returned;
moreover every reply sent is either the "not available" token or an echo of a
client proposal — the muxer never sends an identifier of its own as a
proposal. -/
theorem negotiate_accepts_in_order {H : Type}
    (handlers : List (TProtocol × H)) (ps : List TProtocol) :
    ((∀ p ∈ ps, findHandler handlers p = none) →
      negotiate handlers ps =
        (ps.map fun _ => naToken, Except.error MultiselectError.exhausted)) ∧
    (∀ p0 h0,
      ps.find? (fun p => (findHandler handlers p).isSome) = some p0 →
      findHandler handlers p0 = some h0 →
      negotiate handlers ps =
        ((ps.takeWhile fun p => (findHandler handlers p).isNone).map
            (fun _ => naToken) ++ [p0],
          Except.ok (p0, h0))) ∧
    (∀ r ∈ (negotiate handlers ps).1, r = naToken ∨ r ∈ ps) :=
  ⟨fun h => negotiate_reject_all handlers ps h,
   fun p0 h0 hfind hh => negotiate_first_registered handlers ps p0 h0 hfind hh,
   negotiate_replies_echo_or_na handlers ps⟩

theorem negotiate_accepts_in_order_witness :
    negotiate [("/b", 7)] ["/a", "/b"] =
      ([naToken, "/b"], Except.ok ("/b", 7)) := by
  have h := (negotiate_accepts_in_order [("/b", 7)] ["/a", "/b"]).2.1
    "/b" 7 (by decide) (by decide)
  rw [h]
  rfl

theorem findHandler_isSome_mem {H : Type} (handlers : List (TProtocol × H))
    (p : TProtocol) (h : (findHandler handlers p).isSome = true) :
    p ∈ handlers.map Prod.fst := by
  induction handlers with
  | nil => simp [findHandler] at h
  | cons kv rest ih =>
    by_cases hk : kv.1 = p
    · simp [hk]
    · simp [findHandler, hk] at h
      simp [ih h]

theorem keys_of_update {H : Type} (l : List (TProtocol × H)) (p : TProtocol)
    (h : H) :
    (l.map fun kv => if kv.1 = p then (kv.1, h) else kv).map Prod.fst =
      l.map Prod.fst := by
  induction l with
  | nil => rfl
  | cons kv rest ih => by_cases hk : kv.1 = p <;> simp [hk, ih]

/-- C10: `get_protocols` returns exactly the keys of the handlers mapping in
its iteration order (it is a pure function of the muxer state, mutating
nothing), and immediately after `add_handler p h` the identifier `p` is a
member of `get_protocols`. -/
theorem get_protocols_eq_keys {H : Type} (m : MultiselectMuxer H)
    (p : TProtocol) (h : H) :
    get_protocols m = m.handlers.map Prod.fst ∧
    p ∈ get_protocols (add_handler m p h) := by
  refine ⟨rfl, ?_⟩
  unfold add_handler
  by_cases hs : (findHandler m.handlers p).isSome = true
  · simp only [hs, if_true, get_protocols]
    rw [keys_of_update]
    exact findHandler_isSome_mem m.handlers p hs
  · simp only [hs, Bool.false_eq_true, if_false, get_protocols]
    simp

/-- Stream-state errors of a muxed connection: operating before `start` fails
with a not-ready error; operating on a closed connection fails with a
connection-closed error. -/
inductive MuxError where
  | notStarted
  | connClosed
deriving DecidableEq, Repr

/-- State of an `IMuxedConn` (`src/libp2p/abc.py`, lines 101-151, all
operations abstract).  Modelled from the spec: a "started" readiness flag, a
"closed" flag, and the set of currently open muxed streams it owns
(identified by stream ids). -/
structure MuxedConn where
  started : Bool
  closed : Bool
  streams : List Nat
deriving DecidableEq, Repr

/-- Modelled from the spec: a freshly created muxed connection — not started,
not closed, owning no streams. -/
def MuxedConn.new : MuxedConn := ⟨false, false, []⟩

/-- Modelled from the spec: `IMuxedConn.start` (abstract in src, lines
124-126) marks the multiplexer started; required before stream I/O. -/
def MuxedConn.start (c : MuxedConn) : MuxedConn := { c with started := true }

/-- Modelled from the spec: `IMuxedConn.close` (abstract in src, lines
128-130) gracefully closes all owned streams and marks the connection
closed; it is idempotent and raises no error. -/
def MuxedConn.close (c : MuxedConn) : MuxedConn :=
  { c with closed := true, streams := [] }

/-- Modelled from the spec: `IMuxedConn.is_closed` (abstract property in src,
lines 132-139) — whether the connection is fully closed. -/
def MuxedConn.is_closed (c : MuxedConn) : Bool := c.closed

/-- Modelled from the spec: `IMuxedConn.open_stream` (abstract in src, lines
141-147) creates a new locally-initiated stream; a closed connection rejects
the call, and any stream operation before `Started` fails with a not-ready
error. -/
def MuxedConn.open_stream (c : MuxedConn) (sid : Nat) :
    Except MuxError (Nat × MuxedConn) :=
  if c.closed then Except.error MuxError.connClosed
  else if c.started then Except.ok (sid, { c with streams := sid :: c.streams })
  else Except.error MuxError.notStarted

/-- Modelled from the spec: `IMuxedConn.accept_stream` (abstract in src,
lines 149-151) returns a stream opened by the remote; a closed connection
rejects the call, and any stream operation before `Started` fails with a
not-ready error. -/
def MuxedConn.accept_stream (c : MuxedConn) (sid : Nat) :
    Except MuxError (Nat × MuxedConn) :=
  if c.closed then Except.error MuxError.connClosed
  else if c.started then Except.ok (sid, { c with streams := sid :: c.streams })
  else Except.error MuxError.notStarted

/-- Modelled from the spec: closing or resetting one owned stream removes it
from the connection's set of open streams. -/
def MuxedConn.remove_stream (c : MuxedConn) (sid : Nat) : MuxedConn :=
  { c with streams := c.streams.filter fun s => s != sid }

/-- States of a muxed connection reachable from creation through its
operations. -/
inductive MuxedConn.Reachable : MuxedConn → Prop where
  | new : MuxedConn.Reachable MuxedConn.new
  | start : ∀ {c : MuxedConn}, MuxedConn.Reachable c →
      MuxedConn.Reachable c.start
  | close : ∀ {c : MuxedConn}, MuxedConn.Reachable c →
      MuxedConn.Reachable c.close
  | open_stream : ∀ {c c2 : MuxedConn} {sid s : Nat},
      MuxedConn.Reachable c → c.open_stream sid = Except.ok (s, c2) →
      MuxedConn.Reachable c2
  | accept_stream : ∀ {c c2 : MuxedConn} {sid s : Nat},
      MuxedConn.Reachable c → c.accept_stream sid = Except.ok (s, c2) →
      MuxedConn.Reachable c2
  | remove_stream : ∀ {c : MuxedConn} {sid : Nat}, MuxedConn.Reachable c →
      MuxedConn.Reachable (c.remove_stream sid)

/-- C5: `close` on a muxed connection is idempotent: a second `close` after a
completed first one leaves the observable state identical, with `is_closed`
remaining true; the operation is total, so the second call raises no
error. -/
theorem close_idempotent (c : MuxedConn) :
    c.close.close = c.close ∧
    c.close.is_closed = true ∧
    c.close.close.is_closed = true :=
  ⟨rfl, rfl, rfl⟩

theorem open_stream_ok_closed {c c2 : MuxedConn} {sid s : Nat}
    (h : c.open_stream sid = Except.ok (s, c2)) : c2.closed = false := by
  unfold MuxedConn.open_stream at h
  by_cases hc : c.closed = true
  · simp [hc] at h
  · by_cases hs : c.started = true
    · simp only [Bool.not_eq_true] at hc
      simp [hc, hs] at h
      rw [← h.2]
    · simp only [Bool.not_eq_true] at hc hs
      simp [hc, hs] at h

theorem accept_stream_ok_closed {c c2 : MuxedConn} {sid s : Nat}
    (h : c.accept_stream sid = Except.ok (s, c2)) : c2.closed = false := by
  unfold MuxedConn.accept_stream at h
  by_cases hc : c.closed = true
  · simp [hc] at h
  · by_cases hs : c.started = true
    · simp only [Bool.not_eq_true] at hc
      simp [hc, hs] at h
      rw [← h.2]
    · simp only [Bool.not_eq_true] at hc hs
      simp [hc, hs] at h

theorem reachable_closed_no_streams {c : MuxedConn}
    (hr : MuxedConn.Reachable c) : c.closed = true → c.streams = [] := by
  induction hr with
  | new => intro h; simp [MuxedConn.new] at h
  | start hr ih =>
    intro h
    exact ih h
  | close hr ih => intro _; rfl
  | open_stream hr hok ih =>
    intro h
    rw [open_stream_ok_closed hok] at h
    simp at h
  | accept_stream hr hok ih =>
    intro h
    rw [accept_stream_ok_closed hok] at h
    simp at h
  | remove_stream hr ih =>
    intro h
    have h2 : _ = ([] : List Nat) := ih h
    simp [MuxedConn.remove_stream, h2]

/-- C6: invariant preserved by every operation: whenever a reachable muxed
connection has `is_closed` true, its set of open streams is empty and both
`open_stream` and `accept_stream` fail with the connection-closed error
rather than returning a stream. -/
theorem closed_conn_rejects (c : MuxedConn) (hr : MuxedConn.Reachable c)
    (hc : c.is_closed = true) :
    c.streams = [] ∧
    (∀ sid, c.open_stream sid = Except.error MuxError.connClosed) ∧
    (∀ sid, c.accept_stream sid = Except.error MuxError.connClosed) := by
  have hcl : c.closed = true := hc
  refine ⟨reachable_closed_no_streams hr hcl, ?_, ?_⟩
  · intro sid
    simp [MuxedConn.open_stream, hcl]
  · intro sid
    simp [MuxedConn.accept_stream, hcl]

theorem closed_conn_rejects_witness :
    MuxedConn.new.close.streams = [] ∧
    MuxedConn.new.close.open_stream 0 = Except.error MuxError.connClosed ∧
    MuxedConn.new.close.accept_stream 0 = Except.error MuxError.connClosed := by
  have h := closed_conn_rejects MuxedConn.new.close
    (MuxedConn.Reachable.close MuxedConn.Reachable.new) rfl
  exact ⟨h.1, h.2.1 0, h.2.2 0⟩

/-- State of an `IAddrBook` (`src/libp2p/abc.py`, lines 235-278, all
operations abstract).  Modelled from the spec: for each (peer, address) pair
the absolute expiry time; peers and addresses are opaque identifiers.  Time
is an explicit `Nat` parameter of the operations. -/
structure AddrBook where
  entries : List ((Nat × Nat) × Nat)
deriving DecidableEq, Repr

/-- Expiry time currently recorded for the address `a` of peer `p`, if
any. -/
def lookupExpiry : List ((Nat × Nat) × Nat) → Nat → Nat → Option Nat
  | [], _, _ => none
  | e :: rest, p, a => if e.1 = (p, a) then some e.2 else lookupExpiry rest p a

/-- Modelled from the spec: adding one address with time-to-live `ttl` at
current time `now`: if the address already exists with a longer remaining
TTL, no operation takes place; if it exists with a shorter remaining TTL its
expiry is extended to `now + ttl`; an absent address is recorded with expiry
`now + ttl`.  (`IAddrBook.add_addrs` in src, lines 246-257, is abstract; its
docstring states this merge rule.) -/
def addOne (entries : List ((Nat × Nat) × Nat)) (p a now ttl : Nat) :
    List ((Nat × Nat) × Nat) :=
  match lookupExpiry entries p a with
  | none => entries ++ [((p, a), now + ttl)]
  | some e =>
    if now + ttl ≤ e then entries
    else entries.map fun kv => if kv.1 = (p, a) then (kv.1, now + ttl) else kv

/-- Modelled from the spec: `IAddrBook.add_addrs` adds a batch of addresses
for one peer, all with the same time-to-live, merging each by the TTL rule of
`addOne`. -/
def add_addrs (b : AddrBook) (p : Nat) (addressList : List Nat)
    (ttl now : Nat) : AddrBook :=
  ⟨addressList.foldl (fun es a => addOne es p a now ttl) b.entries⟩

/-- Modelled from the spec: `IAddrBook.addrs` (abstract in src, lines
259-264) returns only the currently-valid (non-expired) addresses of the
peer. -/
def addrs (b : AddrBook) (p now : Nat) : List Nat :=
  (b.entries.filter fun kv => kv.1.1 == p && decide (now < kv.2)).map
    fun kv => kv.1.2

theorem lookupExpiry_append_none (es : List ((Nat × Nat) × Nat))
    (p a v : Nat) (h : lookupExpiry es p a = none) :
    lookupExpiry (es ++ [((p, a), v)]) p a = some v := by
  induction es with
  | nil => simp [lookupExpiry]
  | cons e rest ih =>
    by_cases he : e.1 = (p, a)
    · simp [lookupExpiry, he] at h
    · simp [lookupExpiry, he] at h ⊢
      exact ih h

theorem lookupExpiry_map_update (es : List ((Nat × Nat) × Nat))
    (p a v E : Nat) (h : lookupExpiry es p a = some E) :
    lookupExpiry
        (es.map fun kv => if kv.1 = (p, a) then (kv.1, v) else kv) p a
      = some v := by
  induction es with
  | nil => simp [lookupExpiry] at h
  | cons e rest ih =>
    by_cases he : e.1 = (p, a)
    · simp [lookupExpiry, he]
    · simp [lookupExpiry, he] at h ⊢
      exact ih h

theorem addOne_expiry (es : List ((Nat × Nat) × Nat)) (p a now ttl : Nat) :
    lookupExpiry (addOne es p a now ttl) p a =
      match lookupExpiry es p a with
      | none => some (now + ttl)
      | some E => some (max E (now + ttl)) := by
  cases hl : lookupExpiry es p a with
  | none =>
    simp [addOne, hl]
    exact lookupExpiry_append_none es p a (now + ttl) hl
  | some E =>
    by_cases hle : now + ttl ≤ E
    · simp [addOne, hl, hle, Nat.max_eq_left hle]
    · have hmax : max E (now + ttl) = now + ttl :=
        Nat.max_eq_right (Nat.le_of_not_le hle)
      simp [addOne, hl, hle, hmax]
      exact lookupExpiry_map_update es p a (now + ttl) E hl

/-- C7: the effective expiry of an address is monotonically the maximum:
after a first `add_addrs` records an expiry `E` for address `a` of peer `p`,
a second `add_addrs` with time-to-live `t2` at time `now2` leaves the
recorded expiry at `max E (now2 + t2)` — so a `t2` below the remaining TTL
changes nothing and a larger `t2` extends it to `t2`; the first `add_addrs`
always leaves some expiry recorded; and `addrs` returns only addresses whose
recorded expiry has not yet passed. -/
theorem add_addrs_ttl_merge (b : AddrBook) (p a t1 t2 now1 now2 : Nat) :
    (∀ E, lookupExpiry (add_addrs b p [a] t1 now1).entries p a = some E →
      lookupExpiry
          (add_addrs (add_addrs b p [a] t1 now1) p [a] t2 now2).entries p a
        = some (max E (now2 + t2))) ∧
    (∃ E, lookupExpiry (add_addrs b p [a] t1 now1).entries p a = some E) ∧
    (∀ x, x ∈ addrs b p now2 → ∃ E, ((p, x), E) ∈ b.entries ∧ now2 < E) := by
  refine ⟨?_, ?_, ?_⟩
  · intro E hE
    have h := addOne_expiry (add_addrs b p [a] t1 now1).entries p a now2 t2
    rw [hE] at h
    exact h
  · have h := addOne_expiry b.entries p a now1 t1
    cases hl : lookupExpiry b.entries p a with
    | none =>
      rw [hl] at h
      exact ⟨now1 + t1, h⟩
    | some E =>
      rw [hl] at h
      exact ⟨max E (now1 + t1), h⟩
  · intro x hx
    simp only [addrs, List.mem_map, List.mem_filter] at hx
    obtain ⟨kv, ⟨hmem, hcond⟩, hx2⟩ := hx
    simp only [Bool.and_eq_true, beq_iff_eq, decide_eq_true_eq] at hcond
    refine ⟨kv.2, ?_, hcond.2⟩
    have hkey : kv.1 = (p, x) := by
      cases kv with
      | mk k v =>
        cases k with
        | mk k1 k2 =>
          simp at hcond hx2
          simp [hcond.1, hx2]
    rw [← hkey]
    exact hmem

theorem add_addrs_ttl_merge_witness :
    lookupExpiry
        (add_addrs (add_addrs ⟨[]⟩ 0 [1] 10 0) 0 [1] 5 0).entries 0 1
      = some 10 ∧
    lookupExpiry
        (add_addrs (add_addrs ⟨[]⟩ 0 [1] 10 0) 0 [1] 20 0).entries 0 1
      = some 20 := by
  constructor
  · have h := (add_addrs_ttl_merge ⟨[]⟩ 0 1 10 5 0 0).1 10 (by decide)
    rw [h]
    decide
  · have h := (add_addrs_ttl_merge ⟨[]⟩ 0 1 10 20 0 0).1 10 (by decide)
    rw [h]
    decide

/-- A network connection record in the swarm connection table
(`INetConn` in `src/libp2p/abc.py`, lines 196-206): an identifier and the
"established" readiness signal. -/
structure Conn where
  connId : Nat
  established : Bool
deriving DecidableEq, Repr

/-- Dial errors of `INetwork.dial_peer` (its docstring names `SwarmException`):
no reachable address, all dial attempts erroring, or a failed
security/mux upgrade or negotiation. -/
inductive DialError where
  | noAddresses
  | dialFailed
  | upgradeFailed
deriving DecidableEq, Repr

/-- Outcome of one physical dial-and-upgrade pipeline execution, modelling
the external transport/security/muxer collaborators. -/
inductive DialOutcome where
  | success (c : Conn)
  | failure (e : DialError)
deriving DecidableEq, Repr

/-- The swarm state owned by an `INetwork` (`src/libp2p/abc.py`, line 444):
the table mapping peer identity to its network connection, modelled as an
association list. -/
structure Swarm where
  connections : List (Nat × Conn)
deriving DecidableEq, Repr

/-- Lookup of the connection registered for a peer in the connection
table. -/
def lookupConn : List (Nat × Conn) → Nat → Option Conn
  | [], _ => none
  | kv :: rest, p => if kv.1 = p then some kv.2 else lookupConn rest p

/-- Modelled from the spec: the single dial-and-upgrade attempt run by
`dial_peer` when no established connection exists: on success the resulting
connection is registered in the table; on failure a dial error is raised and
the table is left untouched.  The final `Bool` records that the physical
pipeline was executed. -/
def dialAttempt (sw : Swarm) (p : Nat) (outcome : DialOutcome) :
    Except DialError Conn × Swarm × Bool :=
  match outcome with
  | DialOutcome.success c => (Except.ok c, ⟨(p, c) :: sw.connections⟩, true)
  | DialOutcome.failure e => (Except.error e, sw, true)

/-- Modelled from the spec: `INetwork.dial_peer` (abstract in
`src/libp2p/abc.py`, lines 453-461): if a current established connection to
the peer exists it is returned immediately without dialing; otherwise the
dial-and-upgrade pipeline runs, modelled by its outcome.  The result carries
the value or error, the swarm state after the call, and whether the physical
pipeline was executed. -/
def dial_peer (sw : Swarm) (p : Nat) (outcome : DialOutcome) :
    Except DialError Conn × Swarm × Bool :=
  match lookupConn sw.connections p with
  | some c =>
    if c.established then (Except.ok c, sw, false)
    else dialAttempt sw p outcome
  | none => dialAttempt sw p outcome

/-- C3: when the connection table holds a current established connection to
the peer, `dial_peer` returns exactly that connection, runs no physical dial,
and leaves the table unchanged; and whenever `dial_peer` fails it raises a
dial error with the swarm state identical to the one before the call — in
particular the table holds no entry for the peer created by that attempt. -/
theorem dial_peer_no_partial_state (sw : Swarm) (p : Nat)
    (outcome : DialOutcome) :
    (∀ c, lookupConn sw.connections p = some c → c.established = true →
      dial_peer sw p outcome = (Except.ok c, sw, false)) ∧
    (∀ e, (dial_peer sw p outcome).1 = Except.error e →
      (dial_peer sw p outcome).2.1 = sw ∧
      lookupConn (dial_peer sw p outcome).2.1.connections p =
        lookupConn sw.connections p) := by
  constructor
  · intro c hc hest
    simp [dial_peer, hc, hest]
  · intro e he
    cases houtcome : outcome with
    | success c =>
      cases hl : lookupConn sw.connections p with
      | some c2 =>
        by_cases hest : c2.established = true
        · simp [dial_peer, hl, hest] at he
        · simp only [Bool.not_eq_true] at hest
          simp [dial_peer, dialAttempt, hl, hest, houtcome] at he
      | none =>
        simp [dial_peer, dialAttempt, hl, houtcome] at he
    | failure e2 =>
      cases hl : lookupConn sw.connections p with
      | some c2 =>
        by_cases hest : c2.established = true
        · simp [dial_peer, hl, hest] at he
        · simp only [Bool.not_eq_true] at hest
          simp [dial_peer, dialAttempt, hl, hest, houtcome]
      | none =>
        simp [dial_peer, dialAttempt, hl, houtcome]

theorem dial_peer_no_partial_state_witness :
    dial_peer ⟨[(0, ⟨1, true⟩)]⟩ 0 (DialOutcome.failure DialError.dialFailed)
      = (Except.ok ⟨1, true⟩, ⟨[(0, ⟨1, true⟩)]⟩, false) ∧
    (dial_peer ⟨[]⟩ 0 (DialOutcome.failure DialError.dialFailed)).2.1 =
      (⟨[]⟩ : Swarm) := by
  constructor
  · exact (dial_peer_no_partial_state ⟨[(0, ⟨1, true⟩)]⟩ 0
      (DialOutcome.failure DialError.dialFailed)).1 ⟨1, true⟩ (by decide) rfl
  · exact ((dial_peer_no_partial_state ⟨[]⟩ 0
      (DialOutcome.failure DialError.dialFailed)).2
      DialError.dialFailed (by rfl)).1

/-- A net stream as handed to callers of `new_stream` (`INetStream` in
`src/libp2p/abc.py`, lines 173-190): its id, the protocol attribute read by
`get_protocol` and written by `set_protocol`, and a closed flag. -/
structure NetStream where
  sid : Nat
  protocol : Option TProtocol
  closedFlag : Bool
deriving DecidableEq, Repr

/-- Source `src/libp2p/abc.py`, lines 176-180: `get_protocol` returns the
protocol id the stream runs on. -/
def get_protocol (s : NetStream) : Option TProtocol := s.protocol

/-- Errors of `new_stream`: the implicit dial failed, or the client-side
negotiation over the fresh stream failed. -/
inductive NewStreamError where
  | dialErr (e : DialError)
  | negotiationFailed (e : MultiselectError)
deriving DecidableEq, Repr

/-- Modelled from the spec: `INetwork.new_stream` / `IHost.new_stream`
(abstract in `src/libp2p/abc.py`, lines 463-469 and 617-625): ensure an
established connection (dialing implicitly when absent), open a muxed
stream, and run the client side of multiselect over it; on success the
protocol attribute of the stream is set to the negotiated value before the
stream is returned; on failure the freshly opened stream is closed and the
call fails.  The second component records the final state of the stream
opened by this call, if one was opened. -/
def new_stream (sw : Swarm) (p : Nat) (candidates : List TProtocol)
    (outcome : DialOutcome) (reply : TProtocol → String) (sid : Nat) :
    Except NewStreamError NetStream × Option NetStream :=
  match (dial_peer sw p outcome).1 with
  | Except.error e => (Except.error (NewStreamError.dialErr e), none)
  | Except.ok _ =>
    match (select_one_of reply candidates).2 with
    | Except.ok proto =>
      (Except.ok ⟨sid, some proto, false⟩, some ⟨sid, some proto, false⟩)
    | Except.error e =>
      (Except.error (NewStreamError.negotiationFailed e),
        some ⟨sid, none, true⟩)

/-- C8: any stream returned by `new_stream` already carries the negotiated
protocol — `get_protocol` equals the protocol `select_one_of` agreed on —
and is open; when negotiation fails on an established connection the call
fails with a negotiation error and the freshly opened stream ends closed
with no protocol set, so it is never returned; and when the implicit dial
fails the call fails with the dial error. -/
theorem new_stream_no_half_negotiated (sw : Swarm) (p : Nat)
    (candidates : List TProtocol) (outcome : DialOutcome)
    (reply : TProtocol → String) (sid : Nat) :
    (∀ s, (new_stream sw p candidates outcome reply sid).1 = Except.ok s →
      ∃ proto, (select_one_of reply candidates).2 = Except.ok proto ∧
        get_protocol s = some proto ∧ s.closedFlag = false) ∧
    (∀ e, (select_one_of reply candidates).2 = Except.error e →
      ∀ c, (dial_peer sw p outcome).1 = Except.ok c →
        (new_stream sw p candidates outcome reply sid).1 =
          Except.error (NewStreamError.negotiationFailed e) ∧
        (new_stream sw p candidates outcome reply sid).2 =
          some ⟨sid, none, true⟩) ∧
    (∀ e, (dial_peer sw p outcome).1 = Except.error e →
      (new_stream sw p candidates outcome reply sid).1 =
        Except.error (NewStreamError.dialErr e)) := by
  refine ⟨?_, ?_, ?_⟩
  · intro s hs
    cases hdial : (dial_peer sw p outcome).1 with
    | error e => simp [new_stream, hdial] at hs
    | ok c =>
      cases hsel : (select_one_of reply candidates).2 with
      | error e => simp [new_stream, hdial, hsel] at hs
      | ok proto =>
        simp [new_stream, hdial, hsel] at hs
        exact ⟨proto, rfl, by simp [get_protocol, ← hs], by simp [← hs]⟩
  · intro e he c hc
    simp [new_stream, hc, he]
  · intro e he
    simp [new_stream, he]

theorem new_stream_no_half_negotiated_witness :
    (new_stream ⟨[]⟩ 0 ["/chat/1.0.0"] (DialOutcome.success ⟨1, true⟩)
        (fun q => q) 5).1 = Except.ok ⟨5, some "/chat/1.0.0", false⟩ ∧
    get_protocol ⟨5, some "/chat/1.0.0", false⟩ = some "/chat/1.0.0" := by
  have h := (new_stream_no_half_negotiated ⟨[]⟩ 0 ["/chat/1.0.0"]
    (DialOutcome.success ⟨1, true⟩) (fun q => q) 5).1
    ⟨5, some "/chat/1.0.0", false⟩ (by rfl)
  obtain ⟨proto, hsel, hget, hcl⟩ := h
  have h2 : (select_one_of (fun q => q) ["/chat/1.0.0"]).2 =
      Except.ok "/chat/1.0.0" := rfl
  rw [h2] at hsel
  cases hsel
  exact ⟨rfl, hget⟩

/-- Events observed by the per-peer dial-deduplication logic of the swarm: a
caller arriving in `dial_peer`, and the single in-flight pipeline completing
with its outcome. -/
inductive DialEvent where
  | arrive (caller : Nat)
  | complete (outcome : DialOutcome)
deriving DecidableEq, Repr

/-- Modelled from the spec: the per-peer dial-deduplication state of the
swarm: the registered connection if any, whether a dial attempt is in
flight, the callers awaiting the in-flight attempt, the number of physical
pipeline executions so far, and the outcome delivered to each caller. -/
structure DialDedup where
  connection : Option Conn
  inflight : Bool
  waiters : List Nat
  pipelineRuns : Nat
  results : List (Nat × DialOutcome)
deriving DecidableEq, Repr

/-- The initial dedup state for an unconnected peer. -/
def DialDedup.init : DialDedup := ⟨none, false, [], 0, []⟩

/-- Modelled from the spec: one scheduling step of the dial-deduplication
logic: a caller arriving when a connection is registered receives it
immediately; arriving while an attempt is in flight joins the waiters of
that attempt; arriving otherwise starts the single physical pipeline;
completion of the attempt delivers the same outcome to every waiter and
registers the connection on success. -/
def DialDedup.step (st : DialDedup) : DialEvent → DialDedup
  | DialEvent.arrive c =>
    match st.connection with
    | some conn =>
      { st with results := st.results ++ [(c, DialOutcome.success conn)] }
    | none =>
      if st.inflight then { st with waiters := st.waiters ++ [c] }
      else
        { st with
            inflight := true
            waiters := [c]
            pipelineRuns := st.pipelineRuns + 1 }
  | DialEvent.complete o =>
    { st with
        inflight := false
        waiters := []
        connection :=
          match o with
          | DialOutcome.success c => some c
          | DialOutcome.failure _ => st.connection
        results := st.results ++ st.waiters.map fun c => (c, o) }

/-- Processing of a sequence of events by the dedup logic. -/
def DialDedup.run (st : DialDedup) (evs : List DialEvent) : DialDedup :=
  evs.foldl DialDedup.step st

theorem dedup_run_arrivals (cs : List Nat) (w : List Nat) :
    DialDedup.run ⟨none, true, w, 1, []⟩ (cs.map DialEvent.arrive) =
      ⟨none, true, w ++ cs, 1, []⟩ := by
  induction cs generalizing w with
  | nil => simp [DialDedup.run]
  | cons c cs ih =>
    have hstep : DialDedup.step ⟨none, true, w, 1, []⟩ (DialEvent.arrive c) =
        ⟨none, true, w ++ [c], 1, []⟩ := by
      simp [DialDedup.step]
    simp only [List.map_cons, DialDedup.run, List.foldl_cons]
    rw [show DialDedup.step ⟨none, true, w, 1, []⟩ (DialEvent.arrive c) =
        ⟨none, true, w ++ [c], 1, []⟩ from hstep]
    have := ih (w ++ [c])
    simp only [DialDedup.run] at this
    rw [this]
    simp

/-- C4: for a peer with no current connection, any number of concurrent
`dial_peer` callers arriving before the attempt completes cause exactly one
physical pipeline execution, and every caller receives the same outcome of
that single attempt — the same connection on success, the same failure
otherwise. -/
theorem dial_dedup_single_pipeline (callers : List Nat) (o : DialOutcome)
    (hne : callers ≠ []) :
    (DialDedup.init.run
        (callers.map DialEvent.arrive ++ [DialEvent.complete o])).pipelineRuns
      = 1 ∧
    (DialDedup.init.run
        (callers.map DialEvent.arrive ++ [DialEvent.complete o])).results
      = callers.map fun c => (c, o) := by
  cases callers with
  | nil => exact absurd rfl hne
  | cons c cs =>
    have hfirst : DialDedup.step DialDedup.init (DialEvent.arrive c) =
        ⟨none, true, [c], 1, []⟩ := by
      simp [DialDedup.step, DialDedup.init]
    have harr := dedup_run_arrivals cs [c]
    simp only [DialDedup.run] at harr ⊢
    simp only [List.map_cons, List.foldl_cons, List.foldl_append, hfirst]
    rw [harr]
    simp [DialDedup.step]

theorem dial_dedup_single_pipeline_witness :
    (DialDedup.init.run
        ([DialEvent.arrive 3, DialEvent.arrive 4, DialEvent.arrive 5,
          DialEvent.complete (DialOutcome.success ⟨1, true⟩)])).pipelineRuns
      = 1 ∧
    (DialDedup.init.run
        ([DialEvent.arrive 3, DialEvent.arrive 4, DialEvent.arrive 5,
          DialEvent.complete (DialOutcome.success ⟨1, true⟩)])).results
      = [(3, DialOutcome.success ⟨1, true⟩), (4, DialOutcome.success ⟨1, true⟩),
          (5, DialOutcome.success ⟨1, true⟩)] := by
  have h := dial_dedup_single_pipeline [3, 4, 5]
    (DialOutcome.success ⟨1, true⟩) (by decide)
  constructor
  · simpa using h.1
  · simpa using h.2

end Libp2p
